import Mathlib

/-!
Shallow embedding of the Team Coordinator of TarkovTracker
(functions/src/index.ts): the transactional create/join/leave/kick logic
over the Firestore `system` (membership) and `team` collections, together
with proofs of the consistency properties stated in the specification.

Conventions of the embedding:
* Firestore timestamps are integer milliseconds (`Timestamp.toMillis`).
* A missing membership document is conflated with a document whose fields
  are all absent; this is faithful because the code reads membership data
  only through optional chaining (`systemData?.team` and so on).
* `FieldValue.serverTimestamp()` is the transaction's commit time `now`,
  passed as an explicit parameter.
* The asynchronous UID/password generators are external: each operation
  takes the generator's outcome as a parameter.
* A Firestore transaction commits all of its buffered writes or none of
  them; in all four operations every read and every validation precedes
  every write, so a transaction body is a function from the snapshot to
  either a typed error (nothing committed) or the post-commit store.
-/

namespace TarkovTracker

/-- Firestore timestamps, modelled as integer milliseconds since the epoch
(`Timestamp.toMillis` / `Timestamp.fromMillis`). -/
abbrev Millis := Int

/-- `SystemDocData` from functions/src/index.ts: one user's membership
document in the `system` collection.  `team` is the membership pointer
(absent and explicit `null` are conflated as `none`). -/
structure SystemDocData where
  team : Option String := none
  teamMax : Option Int := none
  lastLeftTeam : Option Millis := none
deriving DecidableEq, Repr

/-- `TeamDocData` from functions/src/index.ts: one team's document in the
`team` collection.  Every field is optional in the TypeScript interface. -/
structure TeamDocData where
  owner : Option String := none
  password : Option String := none
  maximumMembers : Option Int := none
  members : Option (List String) := none
  createdAt : Option Millis := none
deriving DecidableEq, Repr

/-- The team's roster as the code reads it: `teamData?.members` with a
missing field treated as the empty list. -/
def TeamDocData.roster (t : TeamDocData) : List String :=
  t.members.getD []

/-- The slice of Firestore the Coordinator touches: the `system`
(membership) collection keyed by user id and the `team` collection keyed
by team id. -/
structure Store where
  system : String → SystemDocData
  team : String → Option TeamDocData

/-- A store with no team documents and empty membership documents. -/
def emptyStore : Store :=
  { system := fun _ => {}, team := fun _ => none }

/-- The `HttpsError` codes thrown by the Coordinator. -/
inductive ErrCode
  | unauthenticated
  | failedPrecondition
  | invalidArgument
  | notFound
  | resourceExhausted
  | permissionDenied
  | internal
deriving DecidableEq, Repr

/-- An `HttpsError`: a code together with its human-readable message. -/
structure TError where
  code : ErrCode
  msg : String
deriving DecidableEq, Repr

/-- JavaScript truthiness of an optional string field: `undefined`, `null`
and the empty string are falsy. -/
def strTruthy : Option String → Bool
  | none => false
  | some s => !(s == "")

/-- JavaScript `x || d` on an optional string (used for
`data.password || generateSecurePassword()`): the default is taken when the
field is absent or the empty string. -/
def strOrElse (o : Option String) (d : String) : String :=
  match o with
  | none => d
  | some s => if s == "" then d else s

/-- JavaScript `x || d` on an optional number (used for
`data.maximumMembers || 10`): the default is taken when the field is absent
or zero. -/
def numOrDefault (o : Option Int) (d : Int) : Int :=
  match o with
  | none => d
  | some m => if m == 0 then d else m

/-- `FieldValue.arrayUnion u` applied to a possibly missing array field:
appends `u` unless it is already present (a missing field acts as `[]`). -/
def fsArrayUnion (xs : Option (List String)) (u : String) : List String :=
  let l := xs.getD []
  if u ∈ l then l else l ++ [u]

/-- `FieldValue.arrayRemove u` applied to a possibly missing array field:
removes every occurrence of `u` (a missing field acts as `[]`). -/
def fsArrayRemove (xs : Option (List String)) (u : String) : List String :=
  (xs.getD []).filter (fun x => x != u)

/-- Replace one membership document (a `transaction.set` on
`system/uid`; with `merge: true` the unnamed fields are carried over by the
caller building `d` from the old document). -/
def Store.setSystem (s : Store) (uid : String) (d : SystemDocData) : Store :=
  { s with system := fun u => if u = uid then d else s.system u }

/-- Replace (or delete, with `none`) one team document. -/
def Store.setTeam (s : Store) (tid : String) (d : Option TeamDocData) : Store :=
  { s with team := fun t => if t = tid then d else s.team t }

/-- `transaction.set(system/uid, { team: null, lastLeftTeam: now },
{ merge: true })`: the other membership fields are preserved. -/
def writeMemberLeft (s : Store) (uid : String) (now : Millis) : Store :=
  s.setSystem uid { s.system uid with team := none, lastLeftTeam := some now }

/-- `transaction.set(system/uid, { team: tid }, { merge: true })`. -/
def writeMemberTeam (s : Store) (uid : String) (tid : String) : Store :=
  s.setSystem uid { s.system uid with team := some tid }

/-- `transaction.set(team/tid, { members: FieldValue.arrayRemove(u) },
{ merge: true })`: a missing document is created with just the members
field, an existing one keeps its other fields. -/
def writeTeamRemove (s : Store) (tid : String) (u : String) : Store :=
  let t := (s.team tid).getD {}
  s.setTeam tid (some { t with members := some (fsArrayRemove t.members u) })

/-- `transaction.set(team/tid, { members: FieldValue.arrayUnion(u) },
{ merge: true })`. -/
def writeTeamAdd (s : Store) (tid : String) (u : String) : Store :=
  let t := (s.team tid).getD {}
  s.setTeam tid (some { t with members := some (fsArrayUnion t.members u) })

/-- `transaction.delete(team/tid)`. -/
def writeTeamDelete (s : Store) (tid : String) : Store :=
  s.setTeam tid none

/-- `transaction.set(team/tid, doc)` without merge: the whole document is
replaced. -/
def writeTeamCreate (s : Store) (tid : String) (d : TeamDocData) : Store :=
  s.setTeam tid (some d)

/-- Outcome of one run of the external UID generator used for passwords:
it either returned a value (possibly `null`/empty/short) or threw. -/
inductive GenOutcome
  | returned (r : Option String)
  | threw
deriving DecidableEq, Repr

/-- `generateSecurePassword` from functions/src/index.ts, as a function of
the generator's outcome: the generated string when it is truthy and at
least 4 characters long, the fixed fallback `DEBUG_PASS_123` when the
result is missing, empty or too short, and `ERROR_PASS_456` when
generation threw. -/
def generateSecurePassword : GenOutcome → String
  | .returned (some generated) =>
      if !(generated == "") ∧ 4 ≤ generated.length then generated
      else "DEBUG_PASS_123"
  | .returned none => "DEBUG_PASS_123"
  | .threw => "ERROR_PASS_456"

/-- Transaction body of `_leaveTeamLogic`: reads the caller's membership
and (if any) team document, then either disbands the team (owner) or
removes the caller from the roster. -/
def leaveTeamTx (s : Store) (userUid : String) (now : Millis) :
    Except TError Store :=
  let systemData := s.system userUid
  match systemData.team with
  | some tid =>
      if tid = "" then
        .error ⟨.failedPrecondition, "User is not in a team"⟩
      else
        let teamData := s.team tid
        if teamData.bind (fun t => t.owner) = some userUid then
          let ms := (teamData.bind (fun t => t.members)).getD []
          .ok (writeTeamDelete
            (ms.foldl (fun acc m => writeMemberLeft acc m now) s) tid)
        else
          .ok (writeMemberLeft (writeTeamRemove s tid userUid) userUid now)
  | none => .error ⟨.failedPrecondition, "User is not in a team"⟩

/-- `_leaveTeamLogic`: authentication check, then the transaction; on a
thrown error the transaction commits nothing. -/
def leaveTeamLogic (s : Store) (auth : Option String) (now : Millis) :
    Store × Except TError Bool :=
  match auth with
  | none => (s, .error ⟨.unauthenticated, "Authentication required."⟩)
  | some userUid =>
      match leaveTeamTx s userUid now with
      | .error e => (s, .error e)
      | .ok s2 => (s2, .ok true)

/-- `JoinTeamData` from functions/src/index.ts (missing request fields are
modelled as the empty string, which the code treats identically). -/
structure JoinTeamData where
  id : String
  password : String
deriving DecidableEq, Repr

/-- Transaction body of `_joinTeamLogic`, with its five precondition
checks in source order followed by the two writes. -/
def joinTeamTx (s : Store) (userUid : String) (data : JoinTeamData) :
    Except TError Store :=
  let systemData := s.system userUid
  if strTruthy systemData.team then
    .error ⟨.failedPrecondition, "User is already in a team"⟩
  else if data.id = "" ∨ data.password = "" then
    .error ⟨.invalidArgument, "Team ID and password required."⟩
  else
    match s.team data.id with
    | none => .error ⟨.notFound, "Team doesn\x27t exist"⟩
    | some teamData =>
        if teamData.password ≠ some data.password then
          .error ⟨.unauthenticated, "Wrong password"⟩
        else if (teamData.maximumMembers.getD 10) ≤ (teamData.roster.length : Int) then
          .error ⟨.resourceExhausted, "Team is full"⟩
        else
          .ok (writeMemberTeam (writeTeamAdd s data.id userUid) userUid data.id)

/-- `_joinTeamLogic`. -/
def joinTeamLogic (s : Store) (auth : Option String) (data : JoinTeamData) :
    Store × Except TError Bool :=
  match auth with
  | none => (s, .error ⟨.unauthenticated, "Authentication required."⟩)
  | some userUid =>
      match joinTeamTx s userUid data with
      | .error e => (s, .error e)
      | .ok s2 => (s2, .ok true)

/-- `CreateTeamData` from functions/src/index.ts. -/
structure CreateTeamData where
  password : Option String := none
  maximumMembers : Option Int := none
deriving DecidableEq, Repr

/-- Result of a successful `createTeam`. -/
structure CreateResult where
  team : String
  password : String
deriving DecidableEq, Repr

/-- Transaction body of `_createTeamLogic`: membership and cooldown
checks, then the new team document and membership pointer.  `teamId` is the
id produced by the UID generator and `gen` the outcome of the password
generator (consulted only when `data.password` is falsy). -/
def createTeamTx (s : Store) (userUid : String) (data : CreateTeamData)
    (now : Millis) (teamId : String) (gen : GenOutcome) :
    Except TError (Store × String) :=
  let systemData := s.system userUid
  if strTruthy systemData.team then
    .error ⟨.failedPrecondition, "User is already in a team."⟩
  else
    match systemData.lastLeftTeam with
    | some t =>
        if now - 5 * 60 * 1000 < t then
          .error ⟨.failedPrecondition,
            "You must wait 5 minutes after leaving a team to create a new one."⟩
        else
          let teamPassword := strOrElse data.password (generateSecurePassword gen)
          .ok (writeMemberTeam
            (writeTeamCreate s teamId
              { owner := some userUid
                password := some teamPassword
                maximumMembers := some (numOrDefault data.maximumMembers 10)
                members := some [userUid]
                createdAt := some now })
            userUid teamId, teamPassword)
    | none =>
        let teamPassword := strOrElse data.password (generateSecurePassword gen)
        .ok (writeMemberTeam
          (writeTeamCreate s teamId
            { owner := some userUid
              password := some teamPassword
              maximumMembers := some (numOrDefault data.maximumMembers 10)
              members := some [userUid]
              createdAt := some now })
          userUid teamId, teamPassword)

/-- `_createTeamLogic`. -/
def createTeamLogic (s : Store) (auth : Option String) (data : CreateTeamData)
    (now : Millis) (teamId : String) (gen : GenOutcome) :
    Store × Except TError CreateResult :=
  match auth with
  | none => (s, .error ⟨.unauthenticated, "Authentication required."⟩)
  | some userUid =>
      match createTeamTx s userUid data now teamId gen with
      | .error e => (s, .error e)
      | .ok (s2, pw) => (s2, .ok { team := teamId, password := pw })

/-- `KickTeamMemberData` from functions/src/index.ts. -/
structure KickTeamMemberData where
  kicked : String
deriving DecidableEq, Repr

/-- Transaction body of `_kickTeamMemberLogic`: membership, ownership and
roster checks, then the roster removal and the kicked user's membership
reset. -/
def kickTeamMemberTx (s : Store) (userUid : String)
    (data : KickTeamMemberData) (now : Millis) : Except TError Store :=
  let systemData := s.system userUid
  match systemData.team with
  | some teamId =>
      if teamId = "" then
        .error ⟨.failedPrecondition, "User is not in a team."⟩
      else
        let teamData := s.team teamId
        if teamData.bind (fun t => t.owner) ≠ some userUid then
          .error ⟨.permissionDenied, "Only the team owner can kick members."⟩
        else if ¬ data.kicked ∈ (teamData.bind (fun t => t.members)).getD [] then
          .error ⟨.notFound, "User not found in team."⟩
        else
          .ok (writeMemberLeft (writeTeamRemove s teamId data.kicked)
            data.kicked now)
  | none => .error ⟨.failedPrecondition, "User is not in a team."⟩

/-- `_kickTeamMemberLogic`: authentication, the two argument checks that
run before the transaction, then the transaction. -/
def kickTeamMemberLogic (s : Store) (auth : Option String)
    (data : KickTeamMemberData) (now : Millis) : Store × Except TError Bool :=
  match auth with
  | none => (s, .error ⟨.unauthenticated, "Authentication required."⟩)
  | some userUid =>
      if data.kicked = "" then
        (s, .error ⟨.invalidArgument, "Kicked user ID required."⟩)
      else if data.kicked = userUid then
        (s, .error ⟨.invalidArgument, "You can\x27t kick yourself."⟩)
      else
        match kickTeamMemberTx s userUid data now with
        | .error e => (s, .error e)
        | .ok s2 => (s2, .ok true)

/-- One Coordinator call with all of its inputs (caller identity, request
payload, and for `createTeam` the outcomes of the two generators). -/
inductive CoordOp
  | createOp (auth : Option String) (data : CreateTeamData)
      (teamId : String) (gen : GenOutcome)
  | joinOp (auth : Option String) (data : JoinTeamData)
  | leaveOp (auth : Option String)
  | kickOp (auth : Option String) (data : KickTeamMemberData)

/-- The success payload of a Coordinator call. -/
inductive CoordResult
  | created (r : CreateResult)
  | joined (b : Bool)
  | leftTeam (b : Bool)
  | kickedMember (b : Bool)
deriving DecidableEq, Repr

/-- Run one Coordinator operation: the resulting store and either the
typed success payload or the typed error. -/
def runCoord (s : Store) (now : Millis) : CoordOp → Store × Except TError CoordResult
  | .createOp auth data teamId gen =>
      let r := createTeamLogic s auth data now teamId gen
      (r.1, r.2.map CoordResult.created)
  | .joinOp auth data =>
      let r := joinTeamLogic s auth data
      (r.1, r.2.map CoordResult.joined)
  | .leaveOp auth =>
      let r := leaveTeamLogic s auth now
      (r.1, r.2.map CoordResult.leftTeam)
  | .kickOp auth data =>
      let r := kickTeamMemberLogic s auth data now
      (r.1, r.2.map CoordResult.kickedMember)

/-- The membership/roster consistency invariant: every membership pointer
names an existing team whose roster contains the user. -/
def teamInv (s : Store) : Prop :=
  ∀ u tid, (s.system u).team = some tid →
    ∃ t, s.team tid = some t ∧ u ∈ t.roster

/-- A membership document names at most one team (the pointer is a single
field). -/
def membershipUnique (s : Store) : Prop :=
  ∀ u t1 t2, (s.system u).team = some t1 → (s.system u).team = some t2 → t1 = t2

/-- The capacity invariant: every team document's roster is within its
(effective, defaulted) member bound. -/
def capInv (s : Store) : Prop :=
  ∀ tid t, s.team tid = some t →
    (t.roster.length : Int) ≤ t.maximumMembers.getD 10

/-- The team id handed to `createTeam` by the UID generator is fresh: no
team document exists under it.  The other operations need no such
environment assumption. -/
def opFresh (s : Store) : CoordOp → Prop
  | .createOp _ _ teamId _ => s.team teamId = none
  | _ => True

/-- For `createTeam`, a supplied `maximumMembers` argument is nonnegative;
the other operations carry no such argument. -/
def opCapOk : CoordOp → Prop
  | .createOp _ data _ _ => ∀ m, data.maximumMembers = some m → 0 ≤ m
  | _ => True

/-! Pointwise characterizations of the store writes. -/

theorem setSystem_system (s : Store) (uid : String) (d : SystemDocData) (u : String) :
    (s.setSystem uid d).system u = if u = uid then d else s.system u := rfl

theorem setSystem_team (s : Store) (uid : String) (d : SystemDocData) :
    (s.setSystem uid d).team = s.team := rfl

theorem setTeam_team (s : Store) (tid : String) (d : Option TeamDocData) (q : String) :
    (s.setTeam tid d).team q = if q = tid then d else s.team q := rfl

theorem setTeam_system (s : Store) (tid : String) (d : Option TeamDocData) :
    (s.setTeam tid d).system = s.system := rfl

theorem writeMemberLeft_system (s : Store) (uid : String) (now : Millis) (u : String) :
    (writeMemberLeft s uid now).system u =
      if u = uid then
        { s.system uid with team := none, lastLeftTeam := some now }
      else s.system u := rfl

theorem writeMemberLeft_team (s : Store) (uid : String) (now : Millis) :
    (writeMemberLeft s uid now).team = s.team := rfl

theorem writeMemberTeam_system (s : Store) (uid tid : String) (u : String) :
    (writeMemberTeam s uid tid).system u =
      if u = uid then { s.system uid with team := some tid } else s.system u := rfl

theorem writeMemberTeam_team (s : Store) (uid tid : String) :
    (writeMemberTeam s uid tid).team = s.team := rfl

theorem writeTeamRemove_team (s : Store) (tid u : String) (q : String) :
    (writeTeamRemove s tid u).team q =
      if q = tid then
        some { (s.team tid).getD {} with
          members := some (fsArrayRemove ((s.team tid).getD {}).members u) }
      else s.team q := rfl

theorem writeTeamRemove_system (s : Store) (tid u : String) :
    (writeTeamRemove s tid u).system = s.system := rfl

theorem writeTeamAdd_team (s : Store) (tid u : String) (q : String) :
    (writeTeamAdd s tid u).team q =
      if q = tid then
        some { (s.team tid).getD {} with
          members := some (fsArrayUnion ((s.team tid).getD {}).members u) }
      else s.team q := rfl

theorem writeTeamAdd_system (s : Store) (tid u : String) :
    (writeTeamAdd s tid u).system = s.system := rfl

theorem writeTeamDelete_team (s : Store) (tid : String) (q : String) :
    (writeTeamDelete s tid).team q = if q = tid then none else s.team q := rfl

theorem writeTeamDelete_system (s : Store) (tid : String) :
    (writeTeamDelete s tid).system = s.system := rfl

theorem writeTeamCreate_team (s : Store) (tid : String) (d : TeamDocData) (q : String) :
    (writeTeamCreate s tid d).team q = if q = tid then some d else s.team q := rfl

theorem writeTeamCreate_system (s : Store) (tid : String) (d : TeamDocData) :
    (writeTeamCreate s tid d).system = s.system := rfl

/-! Facts about the Firestore array helpers. -/

theorem mem_fsArrayUnion_self (xs : Option (List String)) (u : String) :
    u ∈ fsArrayUnion xs u := by
  unfold fsArrayUnion
  by_cases h : u ∈ xs.getD []
  · simp [h]
  · simp [h]

theorem mem_fsArrayUnion_of_mem (xs : Option (List String)) (u x : String)
    (hx : x ∈ xs.getD []) : x ∈ fsArrayUnion xs u := by
  unfold fsArrayUnion
  by_cases h : u ∈ xs.getD [] <;> simp [h, hx]

theorem fsArrayUnion_length_le (xs : Option (List String)) (u : String) :
    (fsArrayUnion xs u).length ≤ (xs.getD []).length + 1 := by
  unfold fsArrayUnion
  by_cases h : u ∈ xs.getD []
  · simp [h, Nat.le_succ]
  · simp [h]

theorem mem_fsArrayRemove (xs : Option (List String)) (u x : String)
    (hx : x ∈ xs.getD []) (hne : x ≠ u) : x ∈ fsArrayRemove xs u := by
  unfold fsArrayRemove
  simp [List.mem_filter, hx, hne]

theorem not_mem_fsArrayRemove (xs : Option (List String)) (u : String) :
    u ∉ fsArrayRemove xs u := by
  unfold fsArrayRemove
  simp [List.mem_filter]

theorem fsArrayRemove_length_le (xs : Option (List String)) (u : String) :
    (fsArrayRemove xs u).length ≤ (xs.getD []).length := by
  unfold fsArrayRemove
  exact List.length_filter_le _ _

/-! Characterization of the disband loop (`teamData.members.forEach` in the
owner branch of `_leaveTeamLogic`). -/

theorem foldl_writeMemberLeft_team (ms : List String) (s : Store) (now : Millis) :
    (ms.foldl (fun acc m => writeMemberLeft acc m now) s).team = s.team := by
  induction ms generalizing s with
  | nil => rfl
  | cons m ms ih =>
      rw [List.foldl_cons, ih]
      rfl

theorem foldl_writeMemberLeft_system (ms : List String) (s : Store) (now : Millis)
    (u : String) :
    (ms.foldl (fun acc m => writeMemberLeft acc m now) s).system u =
      if u ∈ ms then { s.system u with team := none, lastLeftTeam := some now }
      else s.system u := by
  induction ms generalizing s with
  | nil => simp
  | cons m ms ih =>
      rw [List.foldl_cons, ih]
      rw [writeMemberLeft_system]
      by_cases hums : u ∈ ms
      · by_cases hum : u = m
        · subst hum
          simp [hums]
        · simp [hums, hum]
      · by_cases hum : u = m
        · subst hum
          simp [hums]
        · simp [hums, hum, List.mem_cons]

/-! Per-transaction preservation of the membership/roster invariant. -/

theorem leaveTeamTx_ok_teamInv (s : Store) (uid : String) (now : Millis) (s2 : Store)
    (htx : leaveTeamTx s uid now = .ok s2) (hinv : teamInv s) : teamInv s2 := by
  simp only [leaveTeamTx] at htx
  cases hteam : (s.system uid).team with
  | none => simp [hteam] at htx
  | some tid =>
      simp only [hteam] at htx
      by_cases htid : tid = ""
      · simp [htid] at htx
      · rw [if_neg htid] at htx
        by_cases how : (s.team tid).bind (fun t => t.owner) = some uid
        · -- owner branch: disband
          rw [if_pos how] at htx
          simp only [Except.ok.injEq] at htx
          subst htx
          intro u tid' hmem'
          rw [writeTeamDelete_system, foldl_writeMemberLeft_system] at hmem'
          by_cases hu : u ∈ ((s.team tid).bind (fun t => t.members)).getD []
          · rw [if_pos hu] at hmem'
            simp at hmem'
          · rw [if_neg hu] at hmem'
            obtain ⟨t', ht', hu'⟩ := hinv u tid' hmem'
            by_cases htt : tid' = tid
            · subst htt
              rw [ht'] at hu
              simp only [Option.some_bind] at hu
              exact absurd (by simpa [TeamDocData.roster] using hu') hu
            · refine ⟨t', ?_, hu'⟩
              rw [writeTeamDelete_team, if_neg htt, foldl_writeMemberLeft_team]
              exact ht'
        · -- non-owner branch: leave the roster
          rw [if_neg how] at htx
          simp only [Except.ok.injEq] at htx
          subst htx
          intro u tid' hmem'
          rw [writeMemberLeft_system] at hmem'
          by_cases hu : u = uid
          · rw [if_pos hu] at hmem'
            simp at hmem'
          · rw [if_neg hu] at hmem'
            rw [writeTeamRemove_system] at hmem'
            obtain ⟨t', ht', hu'⟩ := hinv u tid' hmem'
            by_cases htt : tid' = tid
            · subst htt
              refine ⟨{ t' with members := some (fsArrayRemove t'.members uid) }, ?_, ?_⟩
              · rw [writeMemberLeft_team, writeTeamRemove_team, if_pos rfl, ht']
                simp
              · simp only [TeamDocData.roster, Option.getD_some]
                exact mem_fsArrayRemove _ _ _ (by simpa [TeamDocData.roster] using hu') hu
            · refine ⟨t', ?_, hu'⟩
              rw [writeMemberLeft_team, writeTeamRemove_team, if_neg htt]
              exact ht'

theorem joinTeamTx_ok_teamInv (s : Store) (uid : String) (d : JoinTeamData) (s2 : Store)
    (htx : joinTeamTx s uid d = .ok s2) (hinv : teamInv s) : teamInv s2 := by
  simp only [joinTeamTx] at htx
  by_cases h1 : strTruthy (s.system uid).team = true
  · simp [h1] at htx
  · rw [if_neg h1] at htx
    by_cases h2 : d.id = "" ∨ d.password = ""
    · simp [h2] at htx
    · rw [if_neg h2] at htx
      cases hteam : s.team d.id with
      | none => simp [hteam] at htx
      | some teamData =>
          simp only [hteam] at htx
          by_cases h3 : teamData.password ≠ some d.password
          · simp [h3] at htx
          · rw [if_neg h3] at htx
            by_cases h4 : (teamData.maximumMembers.getD 10) ≤ (teamData.roster.length : Int)
            · simp [h4] at htx
            · rw [if_neg h4] at htx
              simp only [Except.ok.injEq] at htx
              subst htx
              intro u tid' hmem'
              rw [writeMemberTeam_system] at hmem'
              by_cases hu : u = uid
              · subst hu
                rw [if_pos rfl] at hmem'
                simp only at hmem'
                cases hmem'
                refine ⟨{ teamData with
                    members := some (fsArrayUnion teamData.members u) }, ?_, ?_⟩
                · rw [writeMemberTeam_team, writeTeamAdd_team, if_pos rfl, hteam]
                  simp
                · simp only [TeamDocData.roster, Option.getD_some]
                  exact mem_fsArrayUnion_self _ _
              · rw [if_neg hu, writeTeamAdd_system] at hmem'
                obtain ⟨t', ht', hu'⟩ := hinv u tid' hmem'
                by_cases htt : tid' = d.id
                · subst htt
                  rw [hteam] at ht'
                  injection ht' with ht'
                  subst ht'
                  refine ⟨{ teamData with
                      members := some (fsArrayUnion teamData.members uid) }, ?_, ?_⟩
                  · rw [writeMemberTeam_team, writeTeamAdd_team, if_pos rfl, hteam]
                    simp
                  · simp only [TeamDocData.roster, Option.getD_some]
                    exact mem_fsArrayUnion_of_mem _ _ _
                      (by simpa [TeamDocData.roster] using hu')
                · refine ⟨t', ?_, hu'⟩
                  rw [writeMemberTeam_team, writeTeamAdd_team, if_neg htt]
                  exact ht'

theorem createTeamTx_ok_teamInv (s : Store) (uid : String) (data : CreateTeamData)
    (now : Millis) (teamId : String) (gen : GenOutcome) (s2 : Store) (pw : String)
    (htx : createTeamTx s uid data now teamId gen = .ok (s2, pw))
    (hfresh : s.team teamId = none) (hinv : teamInv s) : teamInv s2 := by
  simp only [createTeamTx] at htx
  by_cases h1 : strTruthy (s.system uid).team = true
  · simp [h1] at htx
  · rw [if_neg h1] at htx
    have post : s2 = writeMemberTeam
        (writeTeamCreate s teamId
          { owner := some uid
            password := some (strOrElse data.password (generateSecurePassword gen))
            maximumMembers := some (numOrDefault data.maximumMembers 10)
            members := some [uid]
            createdAt := some now })
        uid teamId := by
      cases hll : (s.system uid).lastLeftTeam with
      | none =>
          simp only [hll, Except.ok.injEq, Prod.mk.injEq] at htx
          exact htx.1.symm
      | some t =>
          simp only [hll] at htx
          by_cases h2 : now - 5 * 60 * 1000 < t
          · rw [if_pos h2] at htx
            simp at htx
          · rw [if_neg h2] at htx
            simp only [Except.ok.injEq, Prod.mk.injEq] at htx
            exact htx.1.symm
    subst post
    intro u tid' hmem'
    rw [writeMemberTeam_system] at hmem'
    by_cases hu : u = uid
    · subst hu
      rw [if_pos rfl] at hmem'
      simp only at hmem'
      cases hmem'
      refine ⟨{ owner := some u
                password := some (strOrElse data.password (generateSecurePassword gen))
                maximumMembers := some (numOrDefault data.maximumMembers 10)
                members := some [u]
                createdAt := some now }, ?_, ?_⟩
      · rw [writeMemberTeam_team, writeTeamCreate_team, if_pos rfl]
      · simp [TeamDocData.roster]
    · rw [if_neg hu, writeTeamCreate_system] at hmem'
      obtain ⟨t', ht', hu'⟩ := hinv u tid' hmem'
      by_cases htt : tid' = teamId
      · subst htt
        rw [hfresh] at ht'
        cases ht'
      · refine ⟨t', ?_, hu'⟩
        rw [writeMemberTeam_team, writeTeamCreate_team, if_neg htt]
        exact ht'

theorem kickTeamMemberTx_ok_teamInv (s : Store) (uid : String)
    (d : KickTeamMemberData) (now : Millis) (s2 : Store)
    (htx : kickTeamMemberTx s uid d now = .ok s2) (hinv : teamInv s) : teamInv s2 := by
  simp only [kickTeamMemberTx] at htx
  cases hteam : (s.system uid).team with
  | none => simp [hteam] at htx
  | some tid =>
      simp only [hteam] at htx
      by_cases htid : tid = ""
      · simp [htid] at htx
      · rw [if_neg htid] at htx
        by_cases how : ((s.team tid).bind (fun t => t.owner)) ≠ some uid
        · simp [how] at htx
        · rw [if_neg how] at htx
          by_cases hm : ¬ d.kicked ∈ ((s.team tid).bind (fun t => t.members)).getD []
          · simp [hm] at htx
          · rw [if_neg hm] at htx
            simp only [Except.ok.injEq] at htx
            subst htx
            intro u tid' hmem'
            rw [writeMemberLeft_system] at hmem'
            by_cases hu : u = d.kicked
            · rw [if_pos hu] at hmem'
              simp at hmem'
            · rw [if_neg hu, writeTeamRemove_system] at hmem'
              obtain ⟨t', ht', hu'⟩ := hinv u tid' hmem'
              by_cases htt : tid' = tid
              · subst htt
                refine ⟨{ t' with
                    members := some (fsArrayRemove t'.members d.kicked) }, ?_, ?_⟩
                · rw [writeMemberLeft_team, writeTeamRemove_team, if_pos rfl, ht']
                  simp
                · simp only [TeamDocData.roster, Option.getD_some]
                  exact mem_fsArrayRemove _ _ _
                    (by simpa [TeamDocData.roster] using hu') hu
              · refine ⟨t', ?_, hu'⟩
                rw [writeMemberLeft_team, writeTeamRemove_team, if_neg htt]
                exact ht'

/-- C1: after every Coordinator operation (createTeam, joinTeam, leaveTeam,
kickTeamMember), whether it succeeds or fails, every user's membership
pointer is absent/null or names an existing team record whose roster
contains that user, and no membership names more than one team at a time.
The create case assumes the UID generator handed out a fresh team id. -/
theorem coordinator_preserves_membership_invariant
    (s : Store) (now : Millis) (op : CoordOp)
    (hfresh : opFresh s op) (hinv : teamInv s) :
    teamInv (runCoord s now op).1 ∧ membershipUnique (runCoord s now op).1 := by
  constructor
  · cases op with
    | createOp auth data teamId gen =>
        cases auth with
        | none => simpa [runCoord, createTeamLogic] using hinv
        | some uid =>
            cases htx : createTeamTx s uid data now teamId gen with
            | error e => simpa [runCoord, createTeamLogic, htx] using hinv
            | ok p =>
                obtain ⟨s2, pw⟩ := p
                have h := createTeamTx_ok_teamInv s uid data now teamId gen s2 pw htx
                  hfresh hinv
                simpa [runCoord, createTeamLogic, htx] using h
    | joinOp auth data =>
        cases auth with
        | none => simpa [runCoord, joinTeamLogic] using hinv
        | some uid =>
            cases htx : joinTeamTx s uid data with
            | error e => simpa [runCoord, joinTeamLogic, htx] using hinv
            | ok s2 =>
                have h := joinTeamTx_ok_teamInv s uid data s2 htx hinv
                simpa [runCoord, joinTeamLogic, htx] using h
    | leaveOp auth =>
        cases auth with
        | none => simpa [runCoord, leaveTeamLogic] using hinv
        | some uid =>
            cases htx : leaveTeamTx s uid now with
            | error e => simpa [runCoord, leaveTeamLogic, htx] using hinv
            | ok s2 =>
                have h := leaveTeamTx_ok_teamInv s uid now s2 htx hinv
                simpa [runCoord, leaveTeamLogic, htx] using h
    | kickOp auth data =>
        cases auth with
        | none => simpa [runCoord, kickTeamMemberLogic] using hinv
        | some uid =>
            by_cases hk1 : data.kicked = ""
            · simpa [runCoord, kickTeamMemberLogic, hk1] using hinv
            · by_cases hk2 : data.kicked = uid
              · rw [hk2] at hk1
                simpa [runCoord, kickTeamMemberLogic, hk1, hk2] using hinv
              · cases htx : kickTeamMemberTx s uid data now with
                | error e =>
                    simpa [runCoord, kickTeamMemberLogic, hk1, hk2, htx] using hinv
                | ok s2 =>
                    have h := kickTeamMemberTx_ok_teamInv s uid data now s2 htx hinv
                    simpa [runCoord, kickTeamMemberLogic, hk1, hk2, htx] using h
  · intro u t1 t2 h1 h2
    exact Option.some.inj (h1.symm.trans h2)

/-- Witness for C1 at a concrete input: a (failing) joinTeam call against
the empty store. -/
theorem coordinator_preserves_membership_invariant_witness :
    teamInv (runCoord emptyStore 0 (.joinOp (some "alice") ⟨"T1", "pw"⟩)).1 ∧
      membershipUnique (runCoord emptyStore 0 (.joinOp (some "alice") ⟨"T1", "pw"⟩)).1 :=
  coordinator_preserves_membership_invariant emptyStore 0 _ trivial
    (fun u tid hmem => by simp [emptyStore] at hmem)

/-- C2: whenever a Coordinator operation returns a typed error rather than
its success object, the store after the call equals the store before it:
nothing is created, modified or deleted on the failure path. -/
theorem coordinator_failure_leaves_store_unchanged
    (s : Store) (now : Millis) (op : CoordOp) (e : TError)
    (herr : (runCoord s now op).2 = .error e) : (runCoord s now op).1 = s := by
  cases op with
  | createOp auth data teamId gen =>
      cases auth with
      | none => simp [runCoord, createTeamLogic]
      | some uid =>
          cases htx : createTeamTx s uid data now teamId gen with
          | error e2 => simp [runCoord, createTeamLogic, htx]
          | ok p =>
              obtain ⟨s2, pw⟩ := p
              simp [runCoord, createTeamLogic, htx, Except.map] at herr
  | joinOp auth data =>
      cases auth with
      | none => simp [runCoord, joinTeamLogic]
      | some uid =>
          cases htx : joinTeamTx s uid data with
          | error e2 => simp [runCoord, joinTeamLogic, htx]
          | ok s2 => simp [runCoord, joinTeamLogic, htx, Except.map] at herr
  | leaveOp auth =>
      cases auth with
      | none => simp [runCoord, leaveTeamLogic]
      | some uid =>
          cases htx : leaveTeamTx s uid now with
          | error e2 => simp [runCoord, leaveTeamLogic, htx]
          | ok s2 => simp [runCoord, leaveTeamLogic, htx, Except.map] at herr
  | kickOp auth data =>
      cases auth with
      | none => simp [runCoord, kickTeamMemberLogic]
      | some uid =>
          by_cases hk1 : data.kicked = ""
          · simp [runCoord, kickTeamMemberLogic, hk1]
          · by_cases hk2 : data.kicked = uid
            · rw [hk2] at hk1
              simp [runCoord, kickTeamMemberLogic, hk1, hk2]
            · cases htx : kickTeamMemberTx s uid data now with
              | error e2 => simp [runCoord, kickTeamMemberLogic, hk1, hk2, htx]
              | ok s2 =>
                  simp [runCoord, kickTeamMemberLogic, hk1, hk2, htx, Except.map] at herr

/-- Witness for C2 at a concrete input: leaveTeam from the empty store
fails with failed-precondition and leaves the store untouched. -/
theorem coordinator_failure_leaves_store_unchanged_witness :
    (runCoord emptyStore 0 (.leaveOp (some "alice"))).2 =
        .error ⟨.failedPrecondition, "User is not in a team"⟩ ∧
      (runCoord emptyStore 0 (.leaveOp (some "alice"))).1 = emptyStore :=
  ⟨rfl, coordinator_failure_leaves_store_unchanged emptyStore 0 _ _ rfl⟩

/-! Per-transaction preservation of the capacity invariant. -/

theorem leaveTeamTx_ok_capInv (s : Store) (uid : String) (now : Millis) (s2 : Store)
    (htx : leaveTeamTx s uid now = .ok s2) (hcap : capInv s) : capInv s2 := by
  simp only [leaveTeamTx] at htx
  cases hteam : (s.system uid).team with
  | none => simp [hteam] at htx
  | some tid =>
      simp only [hteam] at htx
      by_cases htid : tid = ""
      · simp [htid] at htx
      · rw [if_neg htid] at htx
        by_cases how : (s.team tid).bind (fun t => t.owner) = some uid
        · rw [if_pos how] at htx
          simp only [Except.ok.injEq] at htx
          subst htx
          intro q t hq
          rw [writeTeamDelete_team] at hq
          by_cases hqt : q = tid
          · rw [if_pos hqt] at hq
            cases hq
          · rw [if_neg hqt, foldl_writeMemberLeft_team] at hq
            exact hcap q t hq
        · rw [if_neg how] at htx
          simp only [Except.ok.injEq] at htx
          subst htx
          intro q t hq
          rw [writeMemberLeft_team, writeTeamRemove_team] at hq
          by_cases hqt : q = tid
          · rw [if_pos hqt] at hq
            injection hq with hq
            subst hq
            cases ht0 : s.team tid with
            | none => simp [ht0, TeamDocData.roster, fsArrayRemove]
            | some t1 =>
                simp only [ht0, Option.getD_some, TeamDocData.roster]
                have h2 : ((fsArrayRemove t1.members uid).length : Int) ≤
                    ((t1.members.getD []).length : Int) := by
                  exact_mod_cast fsArrayRemove_length_le t1.members uid
                exact le_trans h2 (by simpa [TeamDocData.roster] using hcap tid t1 ht0)
          · rw [if_neg hqt] at hq
            exact hcap q t hq

theorem joinTeamTx_ok_capInv (s : Store) (uid : String) (d : JoinTeamData) (s2 : Store)
    (htx : joinTeamTx s uid d = .ok s2) (hcap : capInv s) : capInv s2 := by
  simp only [joinTeamTx] at htx
  by_cases h1 : strTruthy (s.system uid).team = true
  · simp [h1] at htx
  · rw [if_neg h1] at htx
    by_cases h2 : d.id = "" ∨ d.password = ""
    · simp [h2] at htx
    · rw [if_neg h2] at htx
      cases hteam : s.team d.id with
      | none => simp [hteam] at htx
      | some teamData =>
          simp only [hteam] at htx
          by_cases h3 : teamData.password ≠ some d.password
          · simp [h3] at htx
          · rw [if_neg h3] at htx
            by_cases h4 : (teamData.maximumMembers.getD 10) ≤ (teamData.roster.length : Int)
            · simp [h4] at htx
            · rw [if_neg h4] at htx
              simp only [Except.ok.injEq] at htx
              subst htx
              intro q t hq
              rw [writeMemberTeam_team, writeTeamAdd_team] at hq
              by_cases hqt : q = d.id
              · rw [if_pos hqt] at hq
                injection hq with hq
                subst hq
                simp only [hteam, Option.getD_some, TeamDocData.roster]
                have hlt : (teamData.roster.length : Int) <
                    teamData.maximumMembers.getD 10 := not_le.mp h4
                have hle : ((fsArrayUnion teamData.members uid).length : Int) ≤
                    ((teamData.members.getD []).length : Int) + 1 := by
                  exact_mod_cast fsArrayUnion_length_le teamData.members uid
                have := Int.lt_iff_add_one_le.mp hlt
                simp only [TeamDocData.roster] at this
                exact le_trans hle this
              · rw [if_neg hqt] at hq
                exact hcap q t hq

theorem createTeamTx_ok_capInv (s : Store) (uid : String) (data : CreateTeamData)
    (now : Millis) (teamId : String) (gen : GenOutcome) (s2 : Store) (pw : String)
    (htx : createTeamTx s uid data now teamId gen = .ok (s2, pw))
    (hmax : ∀ m, data.maximumMembers = some m → 0 ≤ m)
    (hcap : capInv s) : capInv s2 := by
  simp only [createTeamTx] at htx
  by_cases h1 : strTruthy (s.system uid).team = true
  · simp [h1] at htx
  · rw [if_neg h1] at htx
    have post : s2 = writeMemberTeam
        (writeTeamCreate s teamId
          { owner := some uid
            password := some (strOrElse data.password (generateSecurePassword gen))
            maximumMembers := some (numOrDefault data.maximumMembers 10)
            members := some [uid]
            createdAt := some now })
        uid teamId := by
      cases hll : (s.system uid).lastLeftTeam with
      | none =>
          simp only [hll, Except.ok.injEq, Prod.mk.injEq] at htx
          exact htx.1.symm
      | some t =>
          simp only [hll] at htx
          by_cases h2 : now - 5 * 60 * 1000 < t
          · rw [if_pos h2] at htx
            simp at htx
          · rw [if_neg h2] at htx
            simp only [Except.ok.injEq, Prod.mk.injEq] at htx
            exact htx.1.symm
    subst post
    intro q t hq
    rw [writeMemberTeam_team, writeTeamCreate_team] at hq
    by_cases hqt : q = teamId
    · rw [if_pos hqt] at hq
      injection hq with hq
      subst hq
      simp only [TeamDocData.roster, Option.getD_some, List.length_singleton,
        Nat.cast_one]
      cases hmm : data.maximumMembers with
      | none => simp [numOrDefault]
      | some m =>
          have h0 := hmax m hmm
          simp only [numOrDefault]
          by_cases hm0 : m = 0
          · simp [hm0]
          · have hb : (m == 0) = false := by simpa using hm0
            rw [hb]
            simp only [Bool.false_eq_true, if_false]
            omega
    · rw [if_neg hqt] at hq
      exact hcap q t hq

theorem kickTeamMemberTx_ok_capInv (s : Store) (uid : String)
    (d : KickTeamMemberData) (now : Millis) (s2 : Store)
    (htx : kickTeamMemberTx s uid d now = .ok s2) (hcap : capInv s) : capInv s2 := by
  simp only [kickTeamMemberTx] at htx
  cases hteam : (s.system uid).team with
  | none => simp [hteam] at htx
  | some tid =>
      simp only [hteam] at htx
      by_cases htid : tid = ""
      · simp [htid] at htx
      · rw [if_neg htid] at htx
        by_cases how : ((s.team tid).bind (fun t => t.owner)) ≠ some uid
        · simp [how] at htx
        · rw [if_neg how] at htx
          by_cases hm : ¬ d.kicked ∈ ((s.team tid).bind (fun t => t.members)).getD []
          · simp [hm] at htx
          · rw [if_neg hm] at htx
            simp only [Except.ok.injEq] at htx
            subst htx
            intro q t hq
            rw [writeMemberLeft_team, writeTeamRemove_team] at hq
            by_cases hqt : q = tid
            · rw [if_pos hqt] at hq
              injection hq with hq
              subst hq
              cases ht0 : s.team tid with
              | none => simp [ht0, TeamDocData.roster, fsArrayRemove]
              | some t1 =>
                  simp only [ht0, Option.getD_some, TeamDocData.roster]
                  have h2 : ((fsArrayRemove t1.members d.kicked).length : Int) ≤
                      ((t1.members.getD []).length : Int) := by
                    exact_mod_cast fsArrayRemove_length_le t1.members d.kicked
                  exact le_trans h2 (by simpa [TeamDocData.roster] using hcap tid t1 ht0)
            · rw [if_neg hqt] at hq
              exact hcap q t hq

/-- A joinTeam call whose target team is already at (or beyond) its
effective capacity fails with resource-exhausted. -/
def joinFullFails (s : Store) : Prop :=
  ∀ (uid : String) (d : JoinTeamData) (t : TeamDocData),
    strTruthy (s.system uid).team = false → d.id ≠ "" → d.password ≠ "" →
    s.team d.id = some t → t.password = some d.password →
    t.maximumMembers.getD 10 ≤ (t.roster.length : Int) →
    (joinTeamLogic s (some uid) d).2 =
      .error ⟨.resourceExhausted, "Team is full"⟩

/-- C3 (amended): when every createTeam call supplies a nonnegative
maximumMembers argument (or none at all), each Coordinator operation
preserves the capacity invariant |members| ≤ maximumMembers (the code
defaults the bound to 10 when the field is absent, and also replaces an
explicit 0 by 10); and a joinTeam that would push the roster past the
bound fails with resource-exhausted. -/
theorem coordinator_preserves_capacity
    (s : Store) (now : Millis) (op : CoordOp)
    (hok : opCapOk op) (hcap : capInv s) :
    capInv (runCoord s now op).1 ∧ joinFullFails s := by
  constructor
  · cases op with
    | createOp auth data teamId gen =>
        cases auth with
        | none => simpa [runCoord, createTeamLogic] using hcap
        | some uid =>
            cases htx : createTeamTx s uid data now teamId gen with
            | error e => simpa [runCoord, createTeamLogic, htx] using hcap
            | ok p =>
                obtain ⟨s2, pw⟩ := p
                have h := createTeamTx_ok_capInv s uid data now teamId gen s2 pw htx
                  hok hcap
                simpa [runCoord, createTeamLogic, htx] using h
    | joinOp auth data =>
        cases auth with
        | none => simpa [runCoord, joinTeamLogic] using hcap
        | some uid =>
            cases htx : joinTeamTx s uid data with
            | error e => simpa [runCoord, joinTeamLogic, htx] using hcap
            | ok s2 =>
                have h := joinTeamTx_ok_capInv s uid data s2 htx hcap
                simpa [runCoord, joinTeamLogic, htx] using h
    | leaveOp auth =>
        cases auth with
        | none => simpa [runCoord, leaveTeamLogic] using hcap
        | some uid =>
            cases htx : leaveTeamTx s uid now with
            | error e => simpa [runCoord, leaveTeamLogic, htx] using hcap
            | ok s2 =>
                have h := leaveTeamTx_ok_capInv s uid now s2 htx hcap
                simpa [runCoord, leaveTeamLogic, htx] using h
    | kickOp auth data =>
        cases auth with
        | none => simpa [runCoord, kickTeamMemberLogic] using hcap
        | some uid =>
            by_cases hk1 : data.kicked = ""
            · simpa [runCoord, kickTeamMemberLogic, hk1] using hcap
            · by_cases hk2 : data.kicked = uid
              · rw [hk2] at hk1
                simpa [runCoord, kickTeamMemberLogic, hk1, hk2] using hcap
              · cases htx : kickTeamMemberTx s uid data now with
                | error e =>
                    simpa [runCoord, kickTeamMemberLogic, hk1, hk2, htx] using hcap
                | ok s2 =>
                    have h := kickTeamMemberTx_ok_capInv s uid data now s2 htx hcap
                    simpa [runCoord, kickTeamMemberLogic, hk1, hk2, htx] using h
  · intro uid d t h1 h2 h3 h4 h5 h6
    simp [joinTeamLogic, joinTeamTx, h1, h2, h3, h4, h5, h6]

/-- Witness for C3 (amended) at a concrete input: a createTeam call with
no maximumMembers argument against the empty store. -/
theorem coordinator_preserves_capacity_witness :
    capInv (runCoord emptyStore 0
        (.createOp (some "alice") {} "T1" (.returned (some "GenPw12345")))).1 ∧
      joinFullFails emptyStore :=
  coordinator_preserves_capacity emptyStore 0 _
    (fun m hm => Option.noConfusion hm)
    (fun tid t h => by simp [emptyStore] at h)

/-- Counterexample to C3 as stated: createTeam performs no validation of
maximumMembers, so a createTeam call with maximumMembers = -1 succeeds and
yields a team whose roster (size 1) exceeds its stored bound (-1), even
though the capacity invariant held before the call. -/
theorem createTeam_negative_capacity_counterexample :
    capInv emptyStore ∧
      ¬ capInv (runCoord emptyStore 0
        (.createOp (some "alice") { maximumMembers := some (-1) } "T1"
          (.returned (some "GenPw12345")))).1 := by
  constructor
  · intro tid t h
    simp [emptyStore] at h
  · intro h
    have h2 := h "T1"
      { owner := some "alice", password := some "GenPw12345",
        maximumMembers := some (-1), members := some ["alice"],
        createdAt := some 0 } (by rfl)
    simp [TeamDocData.roster] at h2

/-- C4: when the caller's membership points at a team whose owner is the
caller, leaveTeam disbands the team in one transaction: every member of
the roster (including the caller) ends with membership
{team: null, lastLeftTeam: now}, the team record is deleted so the old id
no longer resolves, and the call returns {left: true}. -/
theorem leaveTeam_owner_disbands
    (s : Store) (uid tid : String) (t : TeamDocData) (now : Millis)
    (hmem : (s.system uid).team = some tid) (hne : tid ≠ "")
    (ht : s.team tid = some t) (howner : t.owner = some uid)
    (hin : uid ∈ t.roster) :
    (∀ m, m ∈ t.roster →
      ((leaveTeamLogic s (some uid) now).1.system m).team = none ∧
      ((leaveTeamLogic s (some uid) now).1.system m).lastLeftTeam = some now) ∧
    ((leaveTeamLogic s (some uid) now).1.system uid).team = none ∧
    (leaveTeamLogic s (some uid) now).1.team tid = none ∧
    (leaveTeamLogic s (some uid) now).2 = .ok true := by
  have howner2 : (s.team tid).bind (fun x => x.owner) = some uid := by
    rw [ht, Option.some_bind, howner]
  have htx : leaveTeamTx s uid now = .ok (writeTeamDelete
      ((t.roster).foldl (fun acc m => writeMemberLeft acc m now) s) tid) := by
    simp only [leaveTeamTx, hmem]
    rw [if_neg hne, if_pos howner2, ht]
    rfl
  have hrun : leaveTeamLogic s (some uid) now =
      (writeTeamDelete
        ((t.roster).foldl (fun acc m => writeMemberLeft acc m now) s) tid,
       .ok true) := by
    simp [leaveTeamLogic, htx]
  rw [hrun]
  refine ⟨?_, ?_, ?_, rfl⟩
  · intro m hm
    constructor
    · rw [writeTeamDelete_system, foldl_writeMemberLeft_system, if_pos hm]
    · rw [writeTeamDelete_system, foldl_writeMemberLeft_system, if_pos hm]
  · rw [writeTeamDelete_system, foldl_writeMemberLeft_system, if_pos hin]
  · rw [writeTeamDelete_team, if_pos rfl]

/-- A concrete two-member team owned by alice, used to exercise the
disband and kick paths. -/
def disbandStore : Store :=
  { system := fun u =>
      if u = "alice" then { team := some "T1" }
      else if u = "bob" then { team := some "T1" }
      else {},
    team := fun tid =>
      if tid = "T1" then
        some { owner := some "alice", password := some "pw",
               maximumMembers := some 10, members := some ["alice", "bob"],
               createdAt := some 0 }
      else none }

/-- Witness for C4 at a concrete input: alice disbands her two-member
team. -/
theorem leaveTeam_owner_disbands_witness :
    ((leaveTeamLogic disbandStore (some "alice") 99).1.system "bob").team = none ∧
    ((leaveTeamLogic disbandStore (some "alice") 99).1.system "alice").team = none ∧
    (leaveTeamLogic disbandStore (some "alice") 99).1.team "T1" = none ∧
    (leaveTeamLogic disbandStore (some "alice") 99).2 = .ok true := by
  have h := leaveTeam_owner_disbands disbandStore "alice" "T1"
    { owner := some "alice", password := some "pw", maximumMembers := some 10,
      members := some ["alice", "bob"], createdAt := some 0 } 99
    (by rfl) (by decide) (by rfl) (by rfl) (by decide)
  exact ⟨(h.1 "bob" (by decide)).1, h.2.1, h.2.2.1, h.2.2.2⟩

/-- C5: the five joinTeam preconditions are evaluated in source order with
the first failing one determining the error (already-in-team, missing
arguments, nonexistent team, wrong password, full team); when none fails
the call adds the caller to the roster, points the caller's membership at
the team and returns {joined: true}. -/
theorem joinTeam_precondition_order (s : Store) (uid : String) (d : JoinTeamData) :
    (strTruthy (s.system uid).team = true →
      (joinTeamLogic s (some uid) d).2 =
        .error ⟨.failedPrecondition, "User is already in a team"⟩) ∧
    (strTruthy (s.system uid).team = false → (d.id = "" ∨ d.password = "") →
      (joinTeamLogic s (some uid) d).2 =
        .error ⟨.invalidArgument, "Team ID and password required."⟩) ∧
    (strTruthy (s.system uid).team = false → d.id ≠ "" → d.password ≠ "" →
      s.team d.id = none →
      (joinTeamLogic s (some uid) d).2 =
        .error ⟨.notFound, "Team doesn\x27t exist"⟩) ∧
    (∀ t, strTruthy (s.system uid).team = false → d.id ≠ "" → d.password ≠ "" →
      s.team d.id = some t → t.password ≠ some d.password →
      (joinTeamLogic s (some uid) d).2 =
        .error ⟨.unauthenticated, "Wrong password"⟩) ∧
    (∀ t, strTruthy (s.system uid).team = false → d.id ≠ "" → d.password ≠ "" →
      s.team d.id = some t → t.password = some d.password →
      t.maximumMembers.getD 10 ≤ (t.roster.length : Int) →
      (joinTeamLogic s (some uid) d).2 =
        .error ⟨.resourceExhausted, "Team is full"⟩) ∧
    (∀ t, strTruthy (s.system uid).team = false → d.id ≠ "" → d.password ≠ "" →
      s.team d.id = some t → t.password = some d.password →
      (t.roster.length : Int) < t.maximumMembers.getD 10 →
      (joinTeamLogic s (some uid) d).1.team d.id =
          some { t with members := some (fsArrayUnion t.members uid) } ∧
        uid ∈ fsArrayUnion t.members uid ∧
        ((joinTeamLogic s (some uid) d).1.system uid).team = some d.id ∧
        (joinTeamLogic s (some uid) d).2 = .ok true) := by
  refine ⟨?_, ?_, ?_, ?_, ?_, ?_⟩
  · intro h1
    simp [joinTeamLogic, joinTeamTx, h1]
  · intro h1 h2
    simp [joinTeamLogic, joinTeamTx, h1, h2]
  · intro h1 h2 h3 h4
    simp [joinTeamLogic, joinTeamTx, h1, h2, h3, h4]
  · intro t h1 h2 h3 h4 h5
    simp [joinTeamLogic, joinTeamTx, h1, h2, h3, h4, h5]
  · intro t h1 h2 h3 h4 h5 h6
    simp [joinTeamLogic, joinTeamTx, h1, h2, h3, h4, h5, h6]
  · intro t h1 h2 h3 h4 h5 h6
    have h7 : ¬ (t.maximumMembers.getD 10 ≤ (t.roster.length : Int)) := not_le.mpr h6
    refine ⟨?_, mem_fsArrayUnion_self _ _, ?_, ?_⟩
    · simp [joinTeamLogic, joinTeamTx, h1, h2, h3, h4, h5, h7,
        writeMemberTeam_team, writeTeamAdd_team]
    · simp [joinTeamLogic, joinTeamTx, h1, h2, h3, h4, h5, h7,
        writeMemberTeam_system]
    · simp [joinTeamLogic, joinTeamTx, h1, h2, h3, h4, h5, h7]

/-- Witness for C5 at a concrete input: joining a nonexistent team reports
not-found, and joining the concrete team with the right password
succeeds. -/
theorem joinTeam_precondition_order_witness :
    (joinTeamLogic emptyStore (some "alice") ⟨"T9", "pw"⟩).2 =
        .error ⟨.notFound, "Team doesn\x27t exist"⟩ ∧
      (joinTeamLogic disbandStore (some "carol") ⟨"T1", "pw"⟩).2 = .ok true := by
  constructor
  · exact (joinTeam_precondition_order emptyStore "alice" ⟨"T9", "pw"⟩).2.2.1
      (by rfl) (by decide) (by decide) (by rfl)
  · exact ((joinTeam_precondition_order disbandStore "carol" ⟨"T1", "pw"⟩).2.2.2.2.2
      { owner := some "alice", password := some "pw", maximumMembers := some 10,
        members := some ["alice", "bob"], createdAt := some 0 }
      (by rfl) (by decide) (by decide) (by rfl) (by rfl) (by decide)).2.2.2

/-- Shared helper: when the caller has no current team and the cooldown
window is closed, the createTeam transaction body commits the new team
document and the membership pointer and reports the final password. -/
theorem createTeamTx_success (s : Store) (uid : String) (data : CreateTeamData)
    (now : Millis) (teamId : String) (gen : GenOutcome)
    (hnt : strTruthy (s.system uid).team = false)
    (hcool : ∀ tl, (s.system uid).lastLeftTeam = some tl →
      ¬ (now - 5 * 60 * 1000 < tl)) :
    createTeamTx s uid data now teamId gen =
      .ok (writeMemberTeam (writeTeamCreate s teamId
        { owner := some uid
          password := some (strOrElse data.password (generateSecurePassword gen))
          maximumMembers := some (numOrDefault data.maximumMembers 10)
          members := some [uid]
          createdAt := some now }) uid teamId,
        strOrElse data.password (generateSecurePassword gen)) := by
  simp only [createTeamTx]
  rw [if_neg (by simp [hnt])]
  cases hll : (s.system uid).lastLeftTeam with
  | none => rfl
  | some tl => exact if_neg (hcool tl hll)

/-- Counterexample to C6 as stated: an explicitly supplied
maximumMembers = 0 is not stored as given; the code evaluates
`data.maximumMembers || 10`, so 0 (a falsy value) is replaced by the
default 10. -/
theorem createTeam_zero_capacity_counterexample :
    (createTeamLogic emptyStore (some "alice")
        { password := some "pw", maximumMembers := some 0 } 0 "T1"
        (.returned (some "GenPw12345"))).1.team "T1" =
      some { owner := some "alice", password := some "pw",
             maximumMembers := some 10, members := some ["alice"],
             createdAt := some 0 } ∧
    ((createTeamLogic emptyStore (some "alice")
        { password := some "pw", maximumMembers := some 0 } 0 "T1"
        (.returned (some "GenPw12345"))).1.team "T1").bind
      (fun t => t.maximumMembers) ≠ some 0 :=
  ⟨rfl, by decide⟩

/-- C6 (amended): a successful createTeam writes the team record
{owner: caller, password, maximumMembers: maximumMembers || 10,
members: [caller], createdAt: now}, points the caller's membership at the
new id and returns {team: newId, password}; because the code uses
JavaScript disjunction rather than nullish coalescing, the default 10
replaces the argument both when it is absent and when it is 0. -/
theorem createTeam_success_effect (s : Store) (uid : String) (data : CreateTeamData)
    (now : Millis) (teamId : String) (gen : GenOutcome)
    (hnt : strTruthy (s.system uid).team = false)
    (hcool : ∀ tl, (s.system uid).lastLeftTeam = some tl →
      ¬ (now - 5 * 60 * 1000 < tl)) :
    (createTeamLogic s (some uid) data now teamId gen).1.team teamId =
      some { owner := some uid
             password := some (strOrElse data.password (generateSecurePassword gen))
             maximumMembers := some (numOrDefault data.maximumMembers 10)
             members := some [uid]
             createdAt := some now } ∧
    ((createTeamLogic s (some uid) data now teamId gen).1.system uid).team =
      some teamId ∧
    (createTeamLogic s (some uid) data now teamId gen).2 =
      .ok { team := teamId,
            password := strOrElse data.password (generateSecurePassword gen) } := by
  have htx := createTeamTx_success s uid data now teamId gen hnt hcool
  have hrun : createTeamLogic s (some uid) data now teamId gen =
      (writeMemberTeam (writeTeamCreate s teamId
        { owner := some uid
          password := some (strOrElse data.password (generateSecurePassword gen))
          maximumMembers := some (numOrDefault data.maximumMembers 10)
          members := some [uid]
          createdAt := some now }) uid teamId,
       .ok { team := teamId,
             password := strOrElse data.password (generateSecurePassword gen) }) := by
    simp [createTeamLogic, htx]
  rw [hrun]
  refine ⟨?_, ?_, rfl⟩
  · rw [writeMemberTeam_team, writeTeamCreate_team, if_pos rfl]
  · rw [writeMemberTeam_system, if_pos rfl]

/-- Witness for C6 (amended) at a concrete input. -/
theorem createTeam_success_effect_witness :
    (createTeamLogic emptyStore (some "alice") {} 7 "T1"
        (.returned (some "GenPw12345"))).1.team "T1" =
      some { owner := some "alice", password := some "GenPw12345",
             maximumMembers := some 10, members := some ["alice"],
             createdAt := some 7 } ∧
    ((createTeamLogic emptyStore (some "alice") {} 7 "T1"
        (.returned (some "GenPw12345"))).1.system "alice").team = some "T1" ∧
    (createTeamLogic emptyStore (some "alice") {} 7 "T1"
        (.returned (some "GenPw12345"))).2 =
      .ok { team := "T1", password := "GenPw12345" } := by
  have h := createTeam_success_effect emptyStore "alice" {} 7 "T1"
    (.returned (some "GenPw12345")) (by rfl)
    (fun tl hl => by simp [emptyStore] at hl)
  exact h

/-- C7: for a caller with no current team but a recorded lastLeftTeam,
createTeam fails with failed-precondition and changes nothing while the
timestamp lies within the 5-minute window before now, and the same call
succeeds once more than 5 minutes have elapsed. -/
theorem createTeam_cooldown (s : Store) (uid : String) (data : CreateTeamData)
    (now : Millis) (teamId : String) (gen : GenOutcome) (tl : Millis)
    (hnt : strTruthy (s.system uid).team = false)
    (hl : (s.system uid).lastLeftTeam = some tl) :
    (now - 5 * 60 * 1000 < tl → tl ≤ now →
      (createTeamLogic s (some uid) data now teamId gen).2 =
        .error ⟨.failedPrecondition,
          "You must wait 5 minutes after leaving a team to create a new one."⟩ ∧
      (createTeamLogic s (some uid) data now teamId gen).1 = s) ∧
    (tl < now - 5 * 60 * 1000 →
      (createTeamLogic s (some uid) data now teamId gen).2 =
        .ok { team := teamId,
              password := strOrElse data.password (generateSecurePassword gen) }) := by
  constructor
  · intro hwin _
    have htx : createTeamTx s uid data now teamId gen =
        .error ⟨.failedPrecondition,
          "You must wait 5 minutes after leaving a team to create a new one."⟩ := by
      simp only [createTeamTx]
      rw [if_neg (by simp [hnt])]
      simp only [hl]
      rw [if_pos hwin]
    constructor
    · simp [createTeamLogic, htx]
    · simp [createTeamLogic, htx]
  · intro hgone
    have htx := createTeamTx_success s uid data now teamId gen hnt
      (fun tl2 hl2 => by
        rw [hl] at hl2
        injection hl2 with hl2
        subst hl2
        exact not_lt.mpr (le_of_lt hgone))
    simp [createTeamLogic, htx]

/-- A caller who left a team at time 100000 and is not currently in any
team. -/
def cooldownStore : Store :=
  { system := fun u => if u = "alice" then { lastLeftTeam := some 100000 } else {},
    team := fun _ => none }

/-- Witness for C7 at concrete inputs: the same createTeam call fails at
now = 200000 (inside the window) and succeeds at now = 500001 (more than
5 minutes after 100000). -/
theorem createTeam_cooldown_witness :
    (createTeamLogic cooldownStore (some "alice") {} 200000 "T1"
        (.returned (some "GenPw12345"))).2 =
      .error ⟨.failedPrecondition,
        "You must wait 5 minutes after leaving a team to create a new one."⟩ ∧
    (createTeamLogic cooldownStore (some "alice") {} 200000 "T1"
        (.returned (some "GenPw12345"))).1 = cooldownStore ∧
    (createTeamLogic cooldownStore (some "alice") {} 500001 "T1"
        (.returned (some "GenPw12345"))).2 =
      .ok { team := "T1", password := "GenPw12345" } := by
  have h1 := (createTeam_cooldown cooldownStore "alice" {} 200000 "T1"
    (.returned (some "GenPw12345")) 100000 (by rfl) (by rfl)).1
    (by decide) (by decide)
  have h2 := (createTeam_cooldown cooldownStore "alice" {} 500001 "T1"
    (.returned (some "GenPw12345")) 100000 (by rfl) (by rfl)).2 (by decide)
  exact ⟨h1.1, h1.2, h2⟩

/-- C8: a successful kickTeamMember removes the kicked user from the
roster, resets the kicked user's membership to
{team: null, lastLeftTeam: now}, leaves the owner's own membership record
untouched, never deletes the team record (even when the kicked member was
the last member besides the owner), and returns {kicked: true}. -/
theorem kickTeamMember_success_effect
    (s : Store) (uid : String) (d : KickTeamMemberData) (now : Millis)
    (tid : String) (t : TeamDocData)
    (hk1 : d.kicked ≠ "") (hk2 : d.kicked ≠ uid)
    (hmem : (s.system uid).team = some tid) (hne : tid ≠ "")
    (ht : s.team tid = some t) (howner : t.owner = some uid)
    (hin : d.kicked ∈ t.roster) :
    (kickTeamMemberLogic s (some uid) d now).1.team tid =
        some { t with members := some (fsArrayRemove t.members d.kicked) } ∧
    d.kicked ∉ fsArrayRemove t.members d.kicked ∧
    (kickTeamMemberLogic s (some uid) d now).1.system d.kicked =
        { s.system d.kicked with team := none, lastLeftTeam := some now } ∧
    (kickTeamMemberLogic s (some uid) d now).1.system uid = s.system uid ∧
    (kickTeamMemberLogic s (some uid) d now).2 = .ok true := by
  have howner2 : (s.team tid).bind (fun x => x.owner) = some uid := by
    rw [ht, Option.some_bind, howner]
  have hin2 : d.kicked ∈ ((s.team tid).bind (fun x => x.members)).getD [] := by
    rw [ht, Option.some_bind]
    simpa [TeamDocData.roster] using hin
  have htx : kickTeamMemberTx s uid d now =
      .ok (writeMemberLeft (writeTeamRemove s tid d.kicked) d.kicked now) := by
    simp only [kickTeamMemberTx, hmem]
    rw [if_neg hne, if_neg (by simp [howner2]), if_neg (by simp [hin2])]
  have hrun : kickTeamMemberLogic s (some uid) d now =
      (writeMemberLeft (writeTeamRemove s tid d.kicked) d.kicked now, .ok true) := by
    simp [kickTeamMemberLogic, hk1, hk2, htx]
  rw [hrun]
  refine ⟨?_, not_mem_fsArrayRemove _ _, ?_, ?_, rfl⟩
  · rw [writeMemberLeft_team, writeTeamRemove_team, if_pos rfl, ht]
    simp
  · rw [writeMemberLeft_system, if_pos rfl, writeTeamRemove_system]
  · rw [writeMemberLeft_system, if_neg (Ne.symm hk2), writeTeamRemove_system]

/-- Witness for C8 at a concrete input: alice kicks bob, the last other
member; the team record survives with roster [alice]. -/
theorem kickTeamMember_success_effect_witness :
    (kickTeamMemberLogic disbandStore (some "alice") ⟨"bob"⟩ 50).1.team "T1" =
      some { owner := some "alice", password := some "pw",
             maximumMembers := some 10, members := some ["alice"],
             createdAt := some 0 } ∧
    (kickTeamMemberLogic disbandStore (some "alice") ⟨"bob"⟩ 50).1.system "alice" =
      disbandStore.system "alice" ∧
    (kickTeamMemberLogic disbandStore (some "alice") ⟨"bob"⟩ 50).2 = .ok true := by
  have h := kickTeamMember_success_effect disbandStore "alice" ⟨"bob"⟩ 50 "T1"
    { owner := some "alice", password := some "pw", maximumMembers := some 10,
      members := some ["alice", "bob"], createdAt := some 0 }
    (by decide) (by decide) (by rfl) (by decide) (by rfl) (by rfl) (by decide)
  exact ⟨h.1, h.2.2.2.1, h.2.2.2.2⟩

/-- Counterexample to C9 as stated: the generator can return a too-short
string without throwing, and createTeam then stores the DEBUG_PASS_123
sentinel instead of the generated value, so the sentinel fallback is not
restricted to the throwing case. -/
theorem password_sentinel_without_throw_counterexample :
    generateSecurePassword (.returned (some "ab")) = "DEBUG_PASS_123" ∧
    ((createTeamLogic emptyStore (some "alice") {} 0 "T1"
        (.returned (some "ab"))).1.team "T1").bind (fun t => t.password) =
      some "DEBUG_PASS_123" ∧
    "DEBUG_PASS_123" ≠ "ab" :=
  ⟨rfl, rfl, by decide⟩

/-- C9 (amended): when the caller supplies no (truthy) password and the
generator returns, without throwing, a non-empty value at least 4
characters long, the password stored on the team record and echoed in the
result is exactly that generated value — never a sentinel constant; the
sentinels arise only for missing/short generated values or a throwing
generator. -/
theorem createTeam_generated_password_used
    (s : Store) (uid : String) (data : CreateTeamData) (now : Millis)
    (teamId : String) (g : String)
    (hp : strTruthy data.password = false)
    (hg1 : g ≠ "") (hg2 : 4 ≤ g.length)
    (hnt : strTruthy (s.system uid).team = false)
    (hcool : ∀ tl, (s.system uid).lastLeftTeam = some tl →
      ¬ (now - 5 * 60 * 1000 < tl)) :
    ((createTeamLogic s (some uid) data now teamId
        (.returned (some g))).1.team teamId).bind (fun t => t.password) =
      some g ∧
    (createTeamLogic s (some uid) data now teamId (.returned (some g))).2 =
      .ok { team := teamId, password := g } := by
  have hgen : generateSecurePassword (.returned (some g)) = g := by
    simp [generateSecurePassword, hg1, hg2]
  have hpw : strOrElse data.password (generateSecurePassword (.returned (some g))) = g := by
    rw [hgen]
    cases hdp : data.password with
    | none => rfl
    | some p =>
        have hpe : p = "" := by
          have h0 := hp
          rw [hdp] at h0
          simpa [strTruthy] using h0
        simp [strOrElse, hpe]
  have htx := createTeamTx_success s uid data now teamId (.returned (some g)) hnt hcool
  rw [hpw] at htx
  have hrun : createTeamLogic s (some uid) data now teamId (.returned (some g)) =
      (writeMemberTeam (writeTeamCreate s teamId
        { owner := some uid
          password := some g
          maximumMembers := some (numOrDefault data.maximumMembers 10)
          members := some [uid]
          createdAt := some now }) uid teamId,
       .ok { team := teamId, password := g }) := by
    simp [createTeamLogic, htx]
  rw [hrun]
  refine ⟨?_, rfl⟩
  rw [writeMemberTeam_team, writeTeamCreate_team, if_pos rfl]
  rfl

/-- Witness for C9 (amended) at a concrete input. -/
theorem createTeam_generated_password_used_witness :
    ((createTeamLogic emptyStore (some "alice") {} 0 "T1"
        (.returned (some "GenPw12345"))).1.team "T1").bind (fun t => t.password) =
      some "GenPw12345" ∧
    (createTeamLogic emptyStore (some "alice") {} 0 "T1"
        (.returned (some "GenPw12345"))).2 =
      .ok { team := "T1", password := "GenPw12345" } :=
  createTeam_generated_password_used emptyStore "alice" {} 0 "T1" "GenPw12345"
    rfl (by decide) (by decide) rfl (fun tl h => by simp [emptyStore] at h)

/-- Helper: the only typed errors the createTeam transaction body can
produce are failed-precondition errors. -/
theorem createTeamTx_error_code (s : Store) (uid : String) (data : CreateTeamData)
    (now : Millis) (teamId : String) (gen : GenOutcome) (e : TError)
    (htx : createTeamTx s uid data now teamId gen = .error e) :
    e.code = .failedPrecondition := by
  simp only [createTeamTx] at htx
  by_cases h1 : strTruthy (s.system uid).team = true
  · rw [if_pos h1] at htx
    injection htx with h
    rw [← h]
  · rw [if_neg h1] at htx
    cases hll : (s.system uid).lastLeftTeam with
    | none =>
        simp only [hll] at htx
        cases htx
    | some tl =>
        simp only [hll] at htx
        by_cases h2 : now - 5 * 60 * 1000 < tl
        · rw [if_pos h2] at htx
          injection htx with h
          rw [← h]
        · rw [if_neg h2] at htx
          cases htx

/-- C10: generateSecurePassword is total over every outcome of the
underlying generator and never propagates an exception: it returns the
generated string when that is non-empty and at least 4 characters long,
the sentinel DEBUG_PASS_123 when the generated result is missing, empty or
shorter than 4 characters, and the sentinel ERROR_PASS_456 when generation
threw; consequently an authenticated createTeam call never fails with an
internal error (its only typed error is failed-precondition). -/
theorem generateSecurePassword_total (o : GenOutcome) :
    (∀ g, o = .returned (some g) → g ≠ "" → 4 ≤ g.length →
      generateSecurePassword o = g) ∧
    (∀ g, o = .returned (some g) → (g = "" ∨ g.length < 4) →
      generateSecurePassword o = "DEBUG_PASS_123") ∧
    (o = .returned none → generateSecurePassword o = "DEBUG_PASS_123") ∧
    (o = .threw → generateSecurePassword o = "ERROR_PASS_456") ∧
    (∀ (s : Store) (uid : String) (data : CreateTeamData) (now : Millis)
      (teamId : String) (e : TError),
      (createTeamLogic s (some uid) data now teamId o).2 = .error e →
      e.code = .failedPrecondition) := by
  refine ⟨?_, ?_, ?_, ?_, ?_⟩
  · intro g ho hg1 hg2
    subst ho
    simp [generateSecurePassword, hg1, hg2]
  · intro g ho hg
    subst ho
    rcases hg with hg | hg
    · simp [generateSecurePassword, hg]
    · have h4 : ¬ (4 ≤ g.length) := not_le.mpr hg
      simp [generateSecurePassword, h4]
  · intro ho
    subst ho
    rfl
  · intro ho
    subst ho
    rfl
  · intro s uid data now teamId e herr
    simp only [createTeamLogic] at herr
    cases htx : createTeamTx s uid data now teamId o with
    | ok p =>
        obtain ⟨s2, pw⟩ := p
        rw [htx] at herr
        cases herr
    | error e2 =>
        rw [htx] at herr
        injection herr with h
        rw [← h]
        exact createTeamTx_error_code s uid data now teamId o e2 htx

/-- Witness for C10 at concrete inputs: a throwing generator yields the
ERROR_PASS_456 sentinel and a good generated value is passed through. -/
theorem generateSecurePassword_total_witness :
    generateSecurePassword .threw = "ERROR_PASS_456" ∧
    generateSecurePassword (.returned (some "LongPass123")) = "LongPass123" :=
  ⟨(generateSecurePassword_total .threw).2.2.2.1 rfl,
   (generateSecurePassword_total (.returned (some "LongPass123"))).1 "LongPass123"
     rfl (by decide) (by decide)⟩

end TarkovTracker
